import Mathlib

/-!
# Verification of the lambda-http-gateway request/response translation

A shallow embedding of the Go sources of the HTTP-to-Lambda gateway:

* `main.go` (`parseRequest`, `invoke`, `sendResponse`) — the inbound parser,
  the invocation translator and the outbound writer;
* `config/config.go` (`GetConfigLevel`, `GetPort`, `GetRegion`) — the
  environment-variable configuration accessors.

Go strings are modelled as Lean `String` (operating on their `data` character
lists), byte slices as `List Nat` with every element `< 256`, `map[string]string`
as association lists with unique keys, and the effectful collaborators
(`json.Marshal`, the Lambda `Invoke` transport, `json.Unmarshal`, the
response writer) as explicit parameters of the embedded functions.  A Go
runtime panic (an out-of-range index) is modelled as `Option.none`, distinct
from an error value returned to the caller.
-/

/-! ## Inbound parser (`main.go`, `parseRequest`) -/

/-- `strings.SplitN(s, "/", 2)` viewed through its two possible shapes:
`some (before, after)` when `s` contains a `'/'` (the two-element slice),
`none` when it does not (the one-element slice, whose second entry does
not exist). -/
def splitFirstSlash : List Char → Option (List Char × List Char)
  | [] => none
  | c :: rest =>
    if c = '/' then some ([], rest)
    else
      match splitFirstSlash rest with
      | none => none
      | some (a, b) => some (c :: a, b)

/-- `strings.TrimPrefix(path, "/")`: drop a single leading slash when present. -/
def trimLeadingSlash : List Char → List Char
  | '/' :: rest => rest
  | l => l

/-- The path-splitting part of `parseRequest` (main.go lines 72–74):
trim the leading slash, split on the first remaining slash, take
`splitPath[0]` as the function name and `"/" ++ splitPath[1]` as the
sub-path.  When the split yields a single element, the Go code indexes
`splitPath[1]` out of range and panics: that is the `none` case. -/
def parsePathL (l : List Char) : Option (List Char × List Char) :=
  match splitFirstSlash (trimLeadingSlash l) with
  | none => none
  | some (fn, rest) => some (fn, '/' :: rest)

/-- String-level wrapper of `parsePathL`. -/
def parsePath (s : String) : Option (String × String) :=
  match parsePathL s.data with
  | none => none
  | some (a, b) => some (⟨a⟩, ⟨b⟩)

/-- The header collection loop of `parseRequest` (main.go lines 76–79):
for each inbound header key with its ordered value list, keep
`values[0]` only.  Indexing an empty value list would panic (`none`);
a real `http.Header` never contains an empty list. -/
def collectHeaders : List (String × List String) → Option (List (String × String))
  | [] => some []
  | (k, v :: _) :: rest =>
    match collectHeaders rest with
    | none => none
    | some r => some ((k, v) :: r)
  | (_, []) :: _ => none

/-- The whole of `parseRequest` (main.go lines 71–86).  The body read is an
explicit parameter (`ioutil.ReadAll` outcome).  Outer `none` is a panic
(no value returned at all); the inner `Except` is the function's returned
error/value pair.  Note the split panic happens before headers and body
are touched, as in the source. -/
def parseRequest (path : String) (headers : List (String × List String))
    (bodyRead : Except String (List Nat)) :
    Option (Except String (String × String × List (String × String) × List Nat)) :=
  match parsePath path with
  | none => none
  | some (fn, sub) =>
    match collectHeaders headers with
    | none => none
    | some hs =>
      match bodyRead with
      | .error e => some (.error ("error parsing request body: " ++ e))
      | .ok body => some (.ok (fn, sub, hs, body))

/-- Whether the handler (main.go lines 39–45) reaches the `invoke` call:
only when `parseRequest` returns normally and without an error value. -/
def handlerReachesInvoke (path : String) (headers : List (String × List String))
    (bodyRead : Except String (List Nat)) : Bool :=
  match parseRequest path headers bodyRead with
  | some (.ok _) => true
  | _ => false

/-! ## Configuration accessors (`config/config.go`)

Each accessor takes the raw value of its environment variable as a
parameter; Go's `os.Getenv` yields `""` for an unset variable. -/

/-- The named logging levels of the logrus library, ordered by verbosity. -/
inductive LogrusLevel where
  | panicL
  | fatalL
  | errorL
  | warnL
  | infoL
  | debugL
  | traceL
deriving DecidableEq, Repr

/-- Numeric verbosity of a logrus level (logrus's own numbering: larger
means more verbose). -/
def levelVerbosity : LogrusLevel → Nat
  | .panicL => 0
  | .fatalL => 1
  | .errorL => 2
  | .warnL => 3
  | .infoL => 4
  | .debugL => 5
  | .traceL => 6

/-- All named logrus levels (`logrus.AllLevels`). -/
def allLevels : List LogrusLevel :=
  [.panicL, .fatalL, .errorL, .warnL, .infoL, .debugL, .traceL]

/-- The most verbose named logrus level, computed from `allLevels`. -/
def mostVerboseLevel : LogrusLevel :=
  allLevels.foldl (fun a b => if levelVerbosity a < levelVerbosity b then b else a) .panicL

/-- ASCII lower-casing of one character, as `strings.ToLower` acts on the
letters of the level names. -/
def asciiLowerChar (c : Char) : Char :=
  if 'A' ≤ c ∧ c ≤ 'Z' then Char.ofNat (c.toNat + 32) else c

/-- ASCII lower-casing of a string. -/
def asciiLower (s : String) : String :=
  ⟨s.data.map asciiLowerChar⟩

/-- `logrus.ParseLevel`: case-insensitive match of the level names,
failing on anything else (including the empty string). -/
def ParseLevel (s : String) : Option LogrusLevel :=
  match asciiLower s with
  | "panic" => some .panicL
  | "fatal" => some .fatalL
  | "error" => some .errorL
  | "warn" => some .warnL
  | "warning" => some .warnL
  | "info" => some .infoL
  | "debug" => some .debugL
  | "trace" => some .traceL
  | _ => none

/-- `GetConfigLevel` (config.go lines 15–21): parse `LOG_LEVEL`, fall back
to `logrus.DebugLevel` on any parse error. -/
def GetConfigLevel (logLevelEnv : String) : LogrusLevel :=
  match ParseLevel logLevelEnv with
  | some level => level
  | none => .debugL

/-- `GetPort` (config.go lines 23–29): `PORT`, defaulting to `"8090"`. -/
def GetPort (portEnv : String) : String :=
  if portEnv = "" then "8090" else portEnv

/-- `GetRegion` (config.go lines 31–37): `AWS_REGION`, defaulting to
`"eu-west-1"`. -/
def GetRegion (regionEnv : String) : String :=
  if regionEnv = "" then "eu-west-1" else regionEnv

/-- The region of the `aws.Config` used to build the Lambda client
(main.go line 103).  It is the literal `"eu-west-1"`; the `AWS_REGION`
environment value is not consulted there, hence the unused parameter. -/
def invokeClientRegion (_awsRegionEnv : String) : String :=
  "eu-west-1"

/-! ## Standard base64 (`encoding/base64`, `StdEncoding`)

The alphabet, `EncodeToString` and `DecodeString` as used by `invoke`.
Bytes are `Nat`s below 256. -/

/-- The standard base64 alphabet. -/
def b64Alphabet : List Char :=
  "ABCDEFGHIJKLMNOPQRSTUVWXYZabcdefghijklmnopqrstuvwxyz0123456789+/".data

/-- The character encoding a six-bit group. -/
def sextetToChar (n : Nat) : Char :=
  b64Alphabet.getD n 'A'

/-- The six-bit group a character stands for, `none` for a character
outside the alphabet (including `'='`). -/
def charToSextet (c : Char) : Option Nat :=
  b64Alphabet.findIdx? (fun d => d = c)

/-- `base64.StdEncoding.EncodeToString` on a byte list: three bytes become
four characters, a final one or two bytes are padded with `'='`. -/
def encodeBytesL : List Nat → List Char
  | [] => []
  | [b0] =>
    [sextetToChar (b0 / 4), sextetToChar (b0 % 4 * 16), '=', '=']
  | [b0, b1] =>
    [sextetToChar (b0 / 4), sextetToChar (b0 % 4 * 16 + b1 / 16),
     sextetToChar (b1 % 16 * 4), '=']
  | b0 :: b1 :: b2 :: rest =>
    sextetToChar (b0 / 4) :: sextetToChar (b0 % 4 * 16 + b1 / 16) ::
    sextetToChar (b1 % 16 * 4 + b2 / 64) :: sextetToChar (b2 % 64) ::
    encodeBytesL rest

/-- String-level `EncodeToString`. -/
def encodeBytes (body : List Nat) : String :=
  ⟨encodeBytesL body⟩

/-- `base64.StdEncoding.DecodeString` on a character list: the input must
be a sequence of four-character groups, `'='` padding allowed only at the
very end; any character outside the alphabet fails. -/
def decodeCharsL : List Char → Option (List Nat)
  | [] => some []
  | c0 :: c1 :: c2 :: c3 :: rest =>
    match charToSextet c0, charToSextet c1 with
    | some s0, some s1 =>
      if c2 = '=' then
        if c3 = '=' ∧ rest = [] then some [s0 * 4 + s1 / 16] else none
      else
        match charToSextet c2 with
        | some s2 =>
          if c3 = '=' then
            if rest = [] then some [s0 * 4 + s1 / 16, s1 % 16 * 16 + s2 / 4] else none
          else
            match charToSextet c3 with
            | some s3 =>
              match decodeCharsL rest with
              | some tail =>
                some ((s0 * 4 + s1 / 16) :: (s1 % 16 * 16 + s2 / 4) ::
                      (s2 % 4 * 64 + s3) :: tail)
              | none => none
            | none => none
        | none => none
    | _, _ => none
  | _ => none

/-- String-level `DecodeString`. -/
def decodeChars (s : String) : Option (List Nat) :=
  decodeCharsL s.data

/-! ## Invocation translator (`main.go`, `invoke`) -/

/-- The outbound envelope, `events.APIGatewayProxyRequest` restricted to
the fields the gateway sets. -/
structure ProxyRequest where
  httpMethod : String
  path : String
  headers : List (String × String)
  body : String
  isBase64Encoded : Bool
deriving DecidableEq, Repr

/-- The backend result, `events.APIGatewayProxyResponse` restricted to the
fields the gateway reads. -/
structure ProxyResponse where
  statusCode : Int
  headers : List (String × String)
  body : String
  isBase64Encoded : Bool
deriving DecidableEq, Repr

/-- The error classes of `invoke`, one per `fmt.Errorf` site (main.go
lines 115, 120, 128, 134). -/
inductive InvokeError where
  | marshalError
  | invokeError (functionName : String)
  | responseDecodeError
  | bodyDecodeError (rawBody : String)
deriving DecidableEq, Repr

/-- Construction of the outbound envelope (main.go lines 105–112): the
request body is base64-encoded and `IsBase64Encoded` is set to `true`. -/
def mkProxyRequest (httpMethod path : String) (requestHeaders : List (String × String))
    (requestBody : List Nat) : ProxyRequest :=
  { httpMethod := httpMethod
    path := path
    headers := requestHeaders
    body := encodeBytes requestBody
    isBase64Encoded := true }

/-- `[]byte(s)` on an ASCII Go string. -/
def stringToBytes (s : String) : List Nat :=
  s.data.map Char.toNat

/-- `invoke` (main.go lines 88–143).  `marshalOk` models `json.Marshal`
applied to the envelope; `backendErr` the error of `client.Invoke`;
`unmarshalled` the outcome of `json.Unmarshal` on the returned payload
(`none` on a decode failure).  The result is Go's four named return
values `(statusCode, body, responseHeaders, err)`, with `none` for a nil
slice/map/error. -/
def invoke (functionName httpMethod path : String)
    (requestHeaders : List (String × String)) (requestBody : List Nat)
    (marshalOk : ProxyRequest → Bool) (backendErr : Option String)
    (unmarshalled : Option ProxyResponse) :
    Int × Option (List Nat) × Option (List (String × String)) × Option InvokeError :=
  if marshalOk (mkProxyRequest httpMethod path requestHeaders requestBody) then
    match backendErr with
    | some _ => (0, none, none, some (.invokeError functionName))
    | none =>
      match unmarshalled with
      | none => (0, none, none, some .responseDecodeError)
      | some resp =>
        if resp.statusCode = 0 then (0, none, none, some .responseDecodeError)
        else if resp.isBase64Encoded then
          match decodeChars resp.body with
          | none => (0, none, none, some (.bodyDecodeError resp.body))
          | some bytes => (resp.statusCode, some bytes, some resp.headers, none)
        else (resp.statusCode, some (stringToBytes resp.body), some resp.headers, none)
  else (0, none, none, some .marshalError)

/-! ## Outbound writer (`main.go`, `sendResponse`) -/

/-- The HTTP response as committed to the client. -/
structure HttpResponse where
  status : Int
  headers : List (String × String)
  body : List Nat
deriving DecidableEq, Repr

/-- `sendResponse` (main.go lines 145–157): apply every header, write the
status code, write the body.  `writeOk` models the outcome of
`w.Write`. -/
def sendResponse (responseHeaders : List (String × String)) (statusCode : Int)
    (body : List Nat) (writeOk : Bool) : Except String HttpResponse :=
  if writeOk then .ok ⟨statusCode, responseHeaders, body⟩
  else .error "error writing response"

/-! ## Helper lemmas -/

theorem sextet_roundtrip : ∀ s, s < 64 → charToSextet (sextetToChar s) = some s := by
  decide

theorem sextet_ne_pad : ∀ s, s < 64 → sextetToChar s ≠ '=' := by
  decide

theorem splitFirstSlash_append (a b : List Char) (h : '/' ∉ a) :
    splitFirstSlash (a ++ '/' :: b) = some (a, b) := by
  induction a with
  | nil => simp [splitFirstSlash]
  | cons c cs ih =>
    have hc : c ≠ '/' := fun hc => h (hc ▸ List.mem_cons_self c cs)
    have hcs : '/' ∉ cs := fun hm => h (List.mem_cons_of_mem c hm)
    simp [splitFirstSlash, hc, ih hcs]

/-! ## Claims -/

/-- **C1.** The spec says a path with no second slash-delimited segment
(such as `"/orders"`) makes parsing fail with a `MalformedPath` error
returned to the caller, with no backend invocation attempted.  In the
source, `parseRequest` indexes `splitPath[1]` although the split of
`"orders"` has a single element, so the handler aborts with an
out-of-range panic (`none` here) instead of returning any error value;
no invocation is attempted, but no `MalformedPath` error exists.  This
theorem evaluates the code at the failing input. -/
theorem c1_path_without_second_segment_panics :
    ∀ (headers : List (String × List String)) (bodyRead : Except String (List Nat)),
      parseRequest "/orders" headers bodyRead = none ∧
        handlerReachesInvoke "/orders" headers bodyRead = false := by
  intro headers bodyRead
  have h : parsePath "/orders" = none := rfl
  constructor
  · unfold parseRequest
    rw [h]
  · unfold handlerReachesInvoke parseRequest
    rw [h]

/-- **C2 (counterexample).** The claim says the log level defaults to the
most verbose named level.  The default is `debug`, but `trace` is a named
logrus level (parsable by `ParseLevel`) that is strictly more verbose, so
the default is not the most verbose named level. -/
theorem c2_default_level_not_most_verbose :
    GetConfigLevel "" ≠ mostVerboseLevel ∧
      ParseLevel "trace" = some LogrusLevel.traceL ∧
      mostVerboseLevel ∈ allLevels ∧
      levelVerbosity (GetConfigLevel "") < levelVerbosity mostVerboseLevel := by
  decide

/-- **C2 (amended).** When the log-level variable is unset or unparsable,
the level defaults to `debug` (the second most verbose named level, one
below `trace`); when the port variable is unset, the port defaults to
`"8090"`. -/
theorem c2_defaults_debug_and_port :
    GetConfigLevel "" = LogrusLevel.debugL ∧
      (∀ s, ParseLevel s = none → GetConfigLevel s = LogrusLevel.debugL) ∧
      GetPort "" = "8090" := by
  refine ⟨rfl, ?_, rfl⟩
  intro s h
  unfold GetConfigLevel
  rw [h]

/-- **C2 (witness).** The amended default applies at the concrete
unparsable value `"bogus"`. -/
theorem c2_defaults_witness : GetConfigLevel "bogus" = LogrusLevel.debugL :=
  c2_defaults_debug_and_port.2.1 "bogus" (by decide)

/-- **C5.** The outbound envelope always carries the base64-encoded
request body with `isBase64Encoded = true`; in particular `GET
/orders/123` with an empty body parses to sub-path `"/123"` and produces
the envelope `{httpMethod := "GET", path := "/123", body := "",
isBase64Encoded := true}`. -/
theorem c5_envelope_always_base64 :
    (∀ (m p : String) (hs : List (String × String)) (b : List Nat),
        (mkProxyRequest m p hs b).body = encodeBytes b ∧
          (mkProxyRequest m p hs b).isBase64Encoded = true) ∧
      parsePath "/orders/123" = some ("orders", "/123") ∧
      mkProxyRequest "GET" "/123" [] [] =
        { httpMethod := "GET", path := "/123", headers := [], body := "",
          isBase64Encoded := true } := by
  exact ⟨fun m p hs b => ⟨rfl, rfl⟩, by decide, by decide⟩

/-- **C9.** The Lambda client is built with the region hardcoded to
`"eu-west-1"` for every value of the `AWS_REGION` environment variable;
the `GetRegion` accessor (which would return `"us-east-1"` when the
variable carries it) is not what the client uses. -/
theorem c9_region_hardcoded :
    (∀ env, invokeClientRegion env = "eu-west-1") ∧
      GetRegion "" = "eu-west-1" ∧
      GetRegion "us-east-1" = "us-east-1" ∧
      GetRegion "us-east-1" ≠ invokeClientRegion "us-east-1" := by
  exact ⟨fun _ => rfl, rfl, by decide, by decide⟩

/-- **C3.** Whenever the backend payload deserializes to a response whose
`statusCode` is `0`, `invoke` returns the response-decode error (the
`fmt.Errorf` of main.go line 128), never a success, whatever the rest of
the payload holds. -/
theorem c3_zero_status_decode_error :
    ∀ (fn m p : String) (hs : List (String × String)) (b : List Nat)
      (marshal : ProxyRequest → Bool) (resp : ProxyResponse),
      marshal (mkProxyRequest m p hs b) = true →
      resp.statusCode = 0 →
      invoke fn m p hs b marshal none (some resp) =
        (0, none, none, some InvokeError.responseDecodeError) := by
  intro fn m p hs b marshal resp hm hz
  simp [invoke, hm, hz]

/-- **C3 (witness).** A concrete well-formed payload with `statusCode = 0`
is rejected as a response-decode error. -/
theorem c3_zero_status_witness :
    invoke "f" "GET" "/x" [] [] (fun _ => true) none
        (some { statusCode := 0, headers := [], body := "", isBase64Encoded := false }) =
      (0, none, none, some InvokeError.responseDecodeError) :=
  c3_zero_status_decode_error "f" "GET" "/x" [] [] (fun _ => true) _ rfl rfl

/-- **C4.** For every path `/{name}/{rest}` (with `name` slash-free and
`rest` non-empty) parsing yields function name `name` and sub-path
`"/" ++ rest`, exactly. -/
theorem c4_parse_valid_path :
    ∀ name rest : String, '/' ∉ name.data → rest ≠ "" →
      parsePath ("/" ++ name ++ "/" ++ rest) = some (name, "/" ++ rest) := by
  intro name rest hname _hrest
  have hslash : "/".data = ['/'] := rfl
  have hdata : ("/" ++ name ++ "/" ++ rest).data =
      '/' :: (name.data ++ '/' :: rest.data) := by
    simp [String.data_append, hslash]
  unfold parsePath parsePathL
  rw [hdata]
  have ht : trimLeadingSlash ('/' :: (name.data ++ '/' :: rest.data)) =
      name.data ++ '/' :: rest.data := rfl
  rw [ht, splitFirstSlash_append _ _ hname]
  have h2 : ("/" ++ rest) = String.mk ('/' :: rest.data) := by
    apply String.ext
    simp [String.data_append, hslash]
  rw [h2]

/-- **C4 (witness).** The concrete path `"/orders/123"` parses to
function name `"orders"` and sub-path `"/123"`. -/
theorem c4_parse_witness : parsePath "/orders/123" = some ("orders", "/123") :=
  c4_parse_valid_path "orders" "123" (by decide) (by decide)

/-- Base64 round-trip at the character-list level: decoding an encoded
byte list (all bytes below 256) gives back that list. -/
theorem encode_decode_list :
    ∀ l : List Nat, (∀ b ∈ l, b < 256) → decodeCharsL (encodeBytesL l) = some l := by
  intro l
  induction l using encodeBytesL.induct with
  | case1 => intro _; rfl
  | case2 b0 =>
    intro h
    have hb0 : b0 < 256 := h b0 (by simp)
    have h0 : b0 / 4 < 64 := by omega
    have h1 : b0 % 4 * 16 < 64 := by omega
    simp only [encodeBytesL, decodeCharsL, sextet_roundtrip _ h0, sextet_roundtrip _ h1]
    simp
    omega
  | case3 b0 b1 =>
    intro h
    have hb0 : b0 < 256 := h b0 (by simp)
    have hb1 : b1 < 256 := h b1 (by simp)
    have h0 : b0 / 4 < 64 := by omega
    have h1 : b0 % 4 * 16 + b1 / 16 < 64 := by omega
    have h2 : b1 % 16 * 4 < 64 := by omega
    have hne2 := sextet_ne_pad _ h2
    simp only [encodeBytesL, decodeCharsL, sextet_roundtrip _ h0, sextet_roundtrip _ h1,
      sextet_roundtrip _ h2]
    simp [hne2]
    omega
  | case4 b0 b1 b2 rest ih =>
    intro h
    have hb0 : b0 < 256 := h b0 (by simp)
    have hb1 : b1 < 256 := h b1 (by simp)
    have hb2 : b2 < 256 := h b2 (by simp)
    have hrest : ∀ b ∈ rest, b < 256 := fun b hb => h b (by simp [hb])
    have h0 : b0 / 4 < 64 := by omega
    have h1 : b0 % 4 * 16 + b1 / 16 < 64 := by omega
    have h2 : b1 % 16 * 4 + b2 / 64 < 64 := by omega
    have h3 : b2 % 64 < 64 := by omega
    have hne2 := sextet_ne_pad _ h2
    have hne3 := sextet_ne_pad _ h3
    simp only [encodeBytesL, decodeCharsL, sextet_roundtrip _ h0, sextet_roundtrip _ h1,
      sextet_roundtrip _ h2, sextet_roundtrip _ h3, ih hrest]
    simp [hne2, hne3]
    refine ⟨by omega, by omega, by omega⟩

/-- **C6.** Base64-encoding a byte sequence (as the outbound envelope body
is encoded) and then decoding it (as a result body is decoded when its
`isBase64Encoded` flag is true) yields the original bytes, for every byte
sequence including the empty one. -/
theorem c6_base64_roundtrip :
    ∀ l : List Nat, (∀ b ∈ l, b < 256) →
      decodeChars (encodeBytes l) = some l := by
  intro l h
  exact encode_decode_list l h

/-- **C6 (witness).** The round-trip at the concrete byte sequence
`[72, 255, 0, 46]`. -/
theorem c6_roundtrip_witness :
    decodeChars (encodeBytes [72, 255, 0, 46]) = some [72, 255, 0, 46] :=
  c6_base64_roundtrip [72, 255, 0, 46] (by decide)

/-- **C7.** When an inbound header key carries several values, the parsed
header map keeps only the first value of each key: the collected map is
exactly the per-key head of the value lists, so every later value is
dropped. -/
theorem c7_first_header_value_wins :
    ∀ hs : List (String × List String), (∀ p ∈ hs, p.2 ≠ []) →
      collectHeaders hs = some (hs.map fun p => (p.1, p.2.headD "")) := by
  intro hs h
  induction hs with
  | nil => rfl
  | cons q rest ih =>
    obtain ⟨k, vs⟩ := q
    cases vs with
    | nil => exact absurd rfl (h (k, []) (List.mem_cons_self _ _))
    | cons v vs' =>
      have hr := ih (fun p hp => h p (List.mem_cons_of_mem _ hp))
      simp [collectHeaders, hr]

/-- **C7 (witness).** A key with two values keeps the first and loses the
second. -/
theorem c7_first_value_witness :
    collectHeaders [("Accept", ["text/html", "application/json"])] =
      some [("Accept", "text/html")] :=
  c7_first_header_value_wins [("Accept", ["text/html", "application/json"])] (by decide)

/-- **C8.** A backend result that deserializes with non-zero status is
passed through unmodified: `invoke` hands its status, headers and
(decoded) body on, and the writer applies exactly those to the client
response; in particular the result `{statusCode := 404, body :=
"bm90IGZvdW5k", isBase64Encoded := true, headers := Content-Type:
text/plain}` yields a 404 response with body `"not found"` and that
header. -/
theorem c8_pass_through :
    (∀ (fn m p : String) (hs : List (String × String)) (b : List Nat)
        (marshal : ProxyRequest → Bool) (resp : ProxyResponse) (bytes : List Nat),
        marshal (mkProxyRequest m p hs b) = true →
        resp.statusCode ≠ 0 →
        ((resp.isBase64Encoded = true → decodeChars resp.body = some bytes →
            invoke fn m p hs b marshal none (some resp) =
              (resp.statusCode, some bytes, some resp.headers, none)) ∧
          (resp.isBase64Encoded = false →
            invoke fn m p hs b marshal none (some resp) =
              (resp.statusCode, some (stringToBytes resp.body), some resp.headers, none)))) ∧
      (∀ (hs : List (String × String)) (code : Int) (body : List Nat),
        sendResponse hs code body true = .ok ⟨code, hs, body⟩) ∧
      invoke "orders" "GET" "/123" [] [] (fun _ => true) none
          (some { statusCode := 404, headers := [("Content-Type", "text/plain")],
                  body := "bm90IGZvdW5k", isBase64Encoded := true }) =
        (404, some (stringToBytes "not found"),
          some [("Content-Type", "text/plain")], none) ∧
      sendResponse [("Content-Type", "text/plain")] 404 (stringToBytes "not found") true =
        .ok ⟨404, [("Content-Type", "text/plain")], stringToBytes "not found"⟩ := by
  refine ⟨?_, fun hs code body => rfl, by decide, rfl⟩
  intro fn m p hs b marshal resp bytes hm hz
  constructor
  · intro hb64 hdec
    simp [invoke, hm, hz, hb64, hdec]
  · intro hb64
    simp [invoke, hm, hz, hb64]

/-- **C8 (witness).** The pass-through at the concrete 404 result. -/
theorem c8_pass_through_witness :
    invoke "orders" "GET" "/123" [] [] (fun _ => true) none
        (some { statusCode := 404, headers := [("Content-Type", "text/plain")],
                body := "bm90IGZvdW5k", isBase64Encoded := true }) =
      (404, some (stringToBytes "not found"),
        some [("Content-Type", "text/plain")], none) :=
  (c8_pass_through.1 "orders" "GET" "/123" [] [] (fun _ => true)
      { statusCode := 404, headers := [("Content-Type", "text/plain")],
        body := "bm90IGZvdW5k", isBase64Encoded := true }
      (stringToBytes "not found") rfl (by decide)).1 rfl (by decide)

/-- **C10.** Whenever `invoke` returns an error of any of its classes, it
returns status `0`, a nil body and nil headers with it — no partial
result ever accompanies an error. -/
theorem c10_error_return_shape :
    ∀ (fn m p : String) (hs : List (String × String)) (b : List Nat)
      (marshal : ProxyRequest → Bool) (be : Option String)
      (unm : Option ProxyResponse) (e : InvokeError),
      (invoke fn m p hs b marshal be unm).2.2.2 = some e →
      invoke fn m p hs b marshal be unm = (0, none, none, some e) := by
  intro fn m p hs b marshal be unm e h
  unfold invoke at h ⊢
  repeat' split at h
  all_goals simp_all

/-- **C10 (witness).** The shape at a concrete backend-call failure. -/
theorem c10_error_shape_witness :
    invoke "f" "GET" "/x" [] [] (fun _ => true) (some "boom") none =
      (0, none, none, some (InvokeError.invokeError "f")) :=
  c10_error_return_shape "f" "GET" "/x" [] [] (fun _ => true) (some "boom") none _ rfl
